import Mathlib

/-!
Verification development for `dynamo-cmdline` (`dynamo/dynamodb_table.py`).

The Python module drives a remote DynamoDB-style table service.  We shallowly
embed the pure logic of the module: batching of item lists, the exponential
backoff batch writer, the paginated query loop, key-schema resolution, write
request construction, and the orchestration of the copy operations.  Remote
calls are modelled by explicit mock response lists (for the query and write
loops) and by event traces (for the orchestrated copy operations).
-/

namespace Dynamo

/-- A DynamoDB item (or key): a finite mapping from attribute names to
(abstracted) attribute values, as Python dicts read from the service.
Attribute names of real service items are always strings. -/
abbrev Item := List (String × String)

/-- One entry of a table's `KeySchema` as returned by `describe_table`. -/
structure KeySchemaEntry where
  attributeName : String
  keyType : String
deriving DecidableEq

/-- One element of `Table.GlobalSecondaryIndexes` in a `describe_table` reply. -/
structure SecondaryIndex where
  indexName : String
  keySchema : List KeySchemaEntry
deriving DecidableEq

/-- A table handle: AWS environment, table name, the `describe_table`
metadata the module reads, and the table's current contents.
`globalSecondaryIndexes = none` models a `describe_table` reply in which the
`GlobalSecondaryIndexes` key is absent (a table with no secondary index). -/
structure Table where
  env : List Char
  table_name : List Char
  keySchema : List KeySchemaEntry
  globalSecondaryIndexes : Option (List SecondaryIndex)
  items : List Item
deriving DecidableEq

/-- `_get_primary_key`: scan the key schema, keeping the last `HASH` entry as
partition key name and the last `RANGE` entry as sort key name (the source's
`for` loop over `response['Table']['KeySchema']`). -/
def _get_primary_key (keys : List KeySchemaEntry) : Option String × Option String :=
  keys.foldl (fun acc key =>
    if key.keyType = "HASH" then (some key.attributeName, acc.2)
    else if key.keyType = "RANGE" then (acc.1, some key.attributeName)
    else acc) (none, none)

/-- `self.pk_name`, resolved in `__init__` via `_get_primary_key`. -/
def pk_name (t : Table) : Option String := (_get_primary_key t.keySchema).1

/-- `self.sk_name`, resolved in `__init__` via `_get_primary_key`. -/
def sk_name (t : Table) : Option String := (_get_primary_key t.keySchema).2

/-- `_get_secondary_key`: `[index['KeySchema'] for index in
response['Table']['GlobalSecondaryIndexes'] if index['IndexName'] == index_name][0]`
followed by the same HASH/RANGE loop as `_get_primary_key`.  A missing
`GlobalSecondaryIndexes` key raises `KeyError`; an empty comprehension makes
the `[0]` subscript raise `IndexError`.  The parameter is an `Option` because
`query_with_filter` passes `None` for it. -/
def _get_secondary_key (t : Table) (index_name : Option String) :
    Except String (Option String × Option String) :=
  match t.globalSecondaryIndexes with
  | none => .error "KeyError: GlobalSecondaryIndexes"
  | some idxs =>
    match idxs.filter (fun i => index_name == some i.indexName) with
    | [] => .error "IndexError: list index out of range"
    | i :: _ => .ok (_get_primary_key i.keySchema)

/-- `BATCH_SIZE = 25`, the module-level constant. -/
def BATCH_SIZE : Nat := 25

/-- The batching list comprehension
`[items[i:i + BATCH_SIZE] for i in range(0, len(items), BATCH_SIZE)]`:
`range(0, n, 25)` has `(n + 24) / 25` elements, the k-th being `25 * k`, and
`items[i:i+25]` is `(items.drop i).take 25`. -/
def batcher (l : List α) : List (List α) :=
  (List.range ((l.length + BATCH_SIZE - 1) / BATCH_SIZE)).map
    (fun k => (l.drop (k * BATCH_SIZE)).take BATCH_SIZE)

/-- Recursive reformulation of `batcher`, used to reason by induction. -/
def chunk : List α → List (List α)
  | [] => []
  | a :: l => ((a :: l).take BATCH_SIZE) :: chunk ((a :: l).drop BATCH_SIZE)
termination_by l => l.length
decreasing_by
  simp only [List.length_drop, List.length_cons, BATCH_SIZE]
  omega

theorem batcher_nil : batcher (α := α) [] = [] := by
  simp [batcher, BATCH_SIZE]

theorem batcher_cons_eq (a : α) (l : List α) :
    batcher (a :: l) = ((a :: l).take BATCH_SIZE) :: batcher ((a :: l).drop BATCH_SIZE) := by
  have hlen : (a :: l).length = l.length + 1 := by simp
  have hceil : ((a :: l).length + BATCH_SIZE - 1) / BATCH_SIZE
      = (((a :: l).drop BATCH_SIZE).length + BATCH_SIZE - 1) / BATCH_SIZE + 1 := by
    simp only [List.length_drop, hlen, BATCH_SIZE]
    omega
  unfold batcher
  rw [hceil, List.range_succ_eq_map, List.map_cons, List.map_map]
  simp only [Nat.zero_mul, List.drop_zero]
  congr 1
  apply List.map_congr_left
  intro k _
  simp only [Function.comp_apply, List.drop_drop]
  congr 2
  simp [Nat.succ_mul, Nat.mul_comm]
  omega

theorem batcher_eq_chunk (l : List α) : batcher l = chunk l := by
  induction l using chunk.induct with
  | case1 => simp [batcher_nil, chunk]
  | case2 a l ih => rw [batcher_cons_eq, chunk, ih]

theorem chunk_flatten : ∀ l : List α, (chunk l).flatten = l := by
  intro l
  induction l using chunk.induct with
  | case1 => simp [chunk]
  | case2 a l ih =>
    rw [chunk, List.flatten_cons, ih, List.take_append_drop]

theorem chunk_eq_nil_iff (l : List α) : chunk l = [] ↔ l = [] := by
  cases l with
  | nil => simp [chunk]
  | cons a l => simp [chunk]

theorem chunk_sizes : ∀ l : List α, ∀ b ∈ chunk l, b.length ≤ BATCH_SIZE := by
  intro l
  induction l using chunk.induct with
  | case1 => simp [chunk]
  | case2 a l ih =>
    intro b hb
    rw [chunk] at hb
    rcases List.mem_cons.mp hb with h | h
    · subst h; simp [List.length_take]
    · exact ih b h

theorem chunk_sizes_dropLast :
    ∀ l : List α, ∀ b ∈ (chunk l).dropLast, b.length = BATCH_SIZE := by
  intro l
  induction l using chunk.induct with
  | case1 => simp [chunk]
  | case2 a l ih =>
    intro b hb
    rw [chunk] at hb
    rcases h : chunk ((a :: l).drop BATCH_SIZE) with _ | ⟨c, cs⟩
    · rw [h] at hb; simp at hb
    · rw [h, List.dropLast_cons_of_ne_nil (by simp)] at hb
      rcases List.mem_cons.mp hb with hb' | hb'
      · subst hb'
        have hne : (a :: l).drop BATCH_SIZE ≠ [] := by
          intro hc; rw [hc] at h; simp [chunk] at h
        have : BATCH_SIZE < (a :: l).length := by
          by_contra hle
          exact hne (List.drop_eq_nil_of_le (by omega))
        simp only [List.length_take, List.length_cons]
        simp only [List.length_cons] at this
        omega
      · exact ih b (by rw [h]; exact hb')

/-- One mocked reply of the service to a `query` call: `Items`,
an optional `LastEvaluatedKey` (absent key modelled by `none`), and an
optional `ScannedCount` (absent key modelled by `none`). -/
structure QueryResponse where
  items : List Item
  lastEvaluatedKey : Option Item
  scannedCount : Option Nat
deriving DecidableEq

/-- The source's pagination condition
`'LastEvaluatedKey' in response and 'ScannedCount' in response and response['ScannedCount'] > 0`. -/
def queryContinue (r : QueryResponse) : Bool :=
  r.lastEvaluatedKey.isSome &&
    (match r.scannedCount with
     | some c => decide (0 < c)
     | none => false)

/-- Outcome of the `while True` pagination loop of `query_items`:
the accumulated `Items`, the `ExclusiveStartKey` used by each issued call
(`none` for the first call, where `last_evaluated_key` is still `None`), and
whether the mock response list ran out while the loop wanted another page. -/
structure QueryRun where
  items : List Item
  startKeys : List (Option Item)
  exhausted : Bool
deriving DecidableEq

/-- The `while True` loop of `query_items`: issue a query (consuming the next
mocked response), extend `items`, and continue with the response's
`LastEvaluatedKey` exactly when `queryContinue` holds, else `break`. -/
def query_items_loop (lastEvaluatedKey : Option Item) :
    List QueryResponse → QueryRun
  | [] => ⟨[], [], true⟩
  | r :: rs =>
    if queryContinue r then
      let rest := query_items_loop r.lastEvaluatedKey rs
      ⟨r.items ++ rest.items, lastEvaluatedKey :: rest.startKeys, rest.exhausted⟩
    else ⟨r.items, [lastEvaluatedKey], false⟩

/-- The `params` dict built by `query_items` (fields the embedding tracks). -/
structure QueryParams where
  tableName : List Char
  limit : Nat
  select : String
  indexName : Option String
  keyConditionPk : Option String
  keyConditionSk : Option String
  pkValue : String
  skPrefix : Option String
deriving DecidableEq

/-- Parameter construction of `query_items`: with an index name, the key names
come from `_get_secondary_key(index_name)` and `IndexName` is set; otherwise
`self.pk_name, self.sk_name` are used.  The sort key name enters the key
condition only when a sort key value is given. -/
def query_items_params (t : Table) (pk : String) (sk : Option String)
    (index_name : Option String) : Except String QueryParams := do
  let names ←
    match index_name with
    | some idx => _get_secondary_key t (some idx)
    | none => .ok (pk_name t, sk_name t)
  .ok { tableName := t.table_name, limit := 200, select := "ALL_ATTRIBUTES",
        indexName := index_name,
        keyConditionPk := names.1,
        keyConditionSk := if sk.isSome then names.2 else none,
        pkValue := pk, skPrefix := sk }

/-- `query_items`: build the params, then run the pagination loop against the
mocked response list, starting with `last_evaluated_key = None`. -/
def query_items (t : Table) (pk : String) (sk : Option String)
    (index_name : Option String) (service : List QueryResponse) :
    Except String (QueryParams × QueryRun) := do
  let params ← query_items_params t pk sk index_name
  .ok (params, query_items_loop none service)

/-- One request of a `batch_write_item` call.  A `DeleteRequest` carries the
`Key` dict `{self.pk_name: item[self.pk_name], self.sk_name: item[self.sk_name]}`,
whose dict keys are the resolved (possibly `None`) key names. -/
inductive WriteRequest where
  | put (item : Item)
  | delete (key : List (Option String × String))
deriving DecidableEq

/-- Python `item[k]` where `k` is a resolved key name (`Option String`): a
`None` subscript never matches, since service items key their attributes by
strings; a missing attribute raises `KeyError` (modelled by `none`). -/
def lookupAttr (item : Item) : Option String → Option String
  | none => none
  | some k => item.lookup k

/-- Build one `DeleteRequest` entry:
`{operation_request: {'Key': {self.pk_name: item[self.pk_name], self.sk_name: item[self.sk_name]}}}`.
Either failing subscript raises `KeyError`. -/
def buildDeleteRequest (pkName skName : Option String) (item : Item) :
    Except String WriteRequest :=
  match lookupAttr item pkName, lookupAttr item skName with
  | some pv, some sv => .ok (.delete [(pkName, pv), (skName, sv)])
  | _, _ => .error "KeyError"

/-- The `batch_write_item` call issued by `_write_batch_items`:
`RequestItems = {self.table_name: request_items}`. -/
structure BatchWriteCall where
  tableName : List Char
  requestItems : List WriteRequest
deriving DecidableEq

/-- `_write_batch_items`: build `request_items` for a `PutRequest` or a
`DeleteRequest` (anything else raises), then issue the call. -/
def _write_batch_items (t : Table) (operation_request : String)
    (items : List Item) : Except String BatchWriteCall :=
  if operation_request = "PutRequest" then
    .ok ⟨t.table_name, items.map .put⟩
  else if operation_request = "DeleteRequest" then do
    let reqs ← items.mapM (buildDeleteRequest (pk_name t) (sk_name t))
    .ok ⟨t.table_name, reqs⟩
  else
    .error "operation_request must be either Put Request or Delete Request"

/-- One mocked reply of the service to a `batch_write_item` call:
`ResponseMetadata.HTTPStatusCode` and `UnprocessedItems` (the request map,
abstracted to its list of requests; Python truthiness of the dict is list
non-emptiness). -/
structure WriteResponse where
  httpStatusCode : Nat
  unprocessedItems : List WriteRequest
deriving DecidableEq

/-- Observable outcome of `__write_batch_items_with_retry` run against a mock:
the payload submitted by each issued write call, the sleep durations in order,
and the raised exception if any (`none` = returned normally). -/
structure WriterResult where
  submissions : List (List WriteRequest)
  delays : List Nat
  error : Option String
deriving DecidableEq

/-- The `while response['UnprocessedItems']:` loop: sleep `backoff_time`,
double it, resubmit `response['UnprocessedItems']` (consuming the next mocked
response), and raise on a non-200 status.  `resp` is the response currently
under examination. -/
def backoffLoop (resp : WriteResponse) (backoff_time : Nat)
    (service : List WriteResponse) : WriterResult :=
  if resp.unprocessedItems = [] then ⟨[], [], none⟩
  else
    match service with
    | [] => ⟨[], [], some "mock service provided no further response"⟩
    | r :: rs =>
      if r.httpStatusCode ≠ 200 then
        ⟨[resp.unprocessedItems], [backoff_time],
          some "returned a problem writing batch unprocessed items"⟩
      else
        let rest := backoffLoop r (backoff_time * 2) rs
        ⟨resp.unprocessedItems :: rest.submissions,
          backoff_time :: rest.delays, rest.error⟩

/-- `__write_batch_items_with_retry`: submit the batch, raise on a non-200
status, then enter the backoff loop with `backoff_time = 3`. -/
def write_batch_items_with_retry (batch : List WriteRequest) :
    List WriteResponse → WriterResult
  | [] => ⟨[batch], [], some "mock service provided no response"⟩
  | r :: rs =>
    if r.httpStatusCode ≠ 200 then
      ⟨[batch], [], some "returned a problem writing batch items"⟩
    else
      let rest := backoffLoop r 3 rs
      ⟨batch :: rest.submissions, rest.delays, rest.error⟩

/-- The exponential backoff schedule: `k` sleeps starting at `b`, doubling. -/
def backoffDelays (b k : Nat) : List Nat :=
  (List.range k).map (fun i => b * 2 ^ i)

/-- An observable remote interaction of the orchestrated copy operations.
`dispatchScan` records `pool.apply_async(scan, ...)` with the scan call's
parameters (`Select`, `ConsistentRead`, `Segment`, `TotalSegments`);
`awaitScan` records the immediately following blocking `result.get()`.
`putBatch`/`deleteBatch` record one completed batch-writer call for one batch
(`pool.starmap` blocks until the whole phase is done, so a batch write is one
event at this granularity). -/
inductive Event where
  | createBackup (env name : List Char)
  | truncateTable (env name : List Char)
  | dispatchScan (env name : List Char) (select : String) (consistentRead : Bool)
      (segment totalSegments : Nat)
  | awaitScan (segment : Nat)
  | putBatch (env name : List Char) (batch : List Item)
  | deleteBatch (env name : List Char) (batch : List Item)
deriving DecidableEq

/-- `create_backup`: a single control-plane call on the table. -/
def create_backup (t : Table) : Event := .createBackup t.env t.table_name

/-- `_truncate`: scans the table for its key projection and batch-deletes every
item until a scan page reports zero items.  The paginated scan-and-delete loop
is modelled by its net effect: one event, and an emptied table. -/
def _truncate (t : Table) : Event × Table :=
  (.truncateTable t.env t.table_name, { t with items := [] })

/-- `_copy_in_parallel_batch`: `for segment in range(num_threads):` dispatch
the segment's scan with `pool.apply_async` (requesting `ALL_ATTRIBUTES`,
`ConsistentRead=True`, `TotalSegments=num_threads`), immediately block on
`result.get()`, slice the returned items into `BATCH_SIZE` batches, and
`pool.starmap` the put writer over them.  `segs` gives each segment's scan
result (`num_threads = segs.length` stands for `os.cpu_count()`); every put
appends the batch to the target's contents. -/
def _copy_in_parallel_batch (source target : Table) (segs : List (List Item)) :
    List Event × Table :=
  let num_threads := segs.length
  let events := ((List.range num_threads).map (fun segment =>
    Event.dispatchScan source.env source.table_name "ALL_ATTRIBUTES" true
        segment num_threads ::
    Event.awaitScan segment ::
    (batcher (segs.getD segment [])).map
      (fun b => Event.putBatch target.env target.table_name b))).flatten
  (events, { target with items := target.items ++ segs.flatten })

/-- `copy_dynamodb_table`: reject incompatible names
(`self.table_name not in other.table_name and other.table_name not in
self.table_name`, Python `in` on strings = substring), then back up the
target, truncate it, and copy the source into it in parallel batches. -/
def copy_dynamodb_table (source target : Table) (segs : List (List Item)) :
    Except String (List Event × Table) :=
  if ¬ source.table_name <:+: target.table_name ∧
      ¬ target.table_name <:+: source.table_name then
    .error "Cannot copy different tables"
  else
    let backupEvent := create_backup target
    let truncated := _truncate target
    let copied := _copy_in_parallel_batch source truncated.2 segs
    .ok (backupEvent :: truncated.1 :: copied.1, copied.2)

/-- `_copy_items_in_parallel_batch`: slice source and target items into
`BATCH_SIZE` batches, `pool.starmap` the delete writer over the target
batches, then `pool.starmap` the put writer over the source batches
(the first `starmap` returns only after all deletes completed). -/
def _copy_items_in_parallel_batch (source target : Table)
    (source_items target_items : List Item) : List Event :=
  let source_batches := batcher source_items
  let target_batches := batcher target_items
  target_batches.map (fun b => Event.deleteBatch target.env target.table_name b) ++
    source_batches.map (fun b => Event.putBatch target.env target.table_name b)

/-- `copy_dynamodb_items`: reject incompatible names (same check as
`copy_dynamodb_table`), query matching items in source and target, then
delete-and-put them in parallel batches. -/
def copy_dynamodb_items (source target : Table) (pk : String)
    (sk : Option String) (index_name : Option String)
    (sourceService targetService : List QueryResponse) :
    Except String (List Event) :=
  if ¬ source.table_name <:+: target.table_name ∧
      ¬ target.table_name <:+: source.table_name then
    .error "Cannot copy items across tables with different names"
  else do
    let sourceQ ← query_items source pk sk index_name sourceService
    let targetQ ← query_items target pk sk index_name targetService
    .ok (_copy_items_in_parallel_batch source target
          sourceQ.2.items targetQ.2.items)

/-- The `table.query` call issued by `query_with_filter` (tracked fields). -/
structure FilterQueryCall where
  tableName : List Char
  indexName : Option String
  keyConditionPk : Option String
  pkValue : String
  filterAttrKey : String
  filterAttrValue : String
deriving DecidableEq

/-- `query_with_filter`: with `index_name` given, query the index but build the
key condition from `Key(self.pk_name)` — the base table's partition key name;
with no `index_name`, first run `pk_name, _ = self._get_secondary_key(index_name)`
(that is, `_get_secondary_key(None)`) and query with that name. -/
def query_with_filter (t : Table) (pk attr_key attr_value : String)
    (index_name : Option String) : Except String FilterQueryCall :=
  match index_name with
  | some idx =>
      .ok { tableName := t.table_name, indexName := some idx,
            keyConditionPk := pk_name t, pkValue := pk,
            filterAttrKey := attr_key, filterAttrValue := attr_value }
  | none => do
      let names ← _get_secondary_key t none
      .ok { tableName := t.table_name, indexName := none,
            keyConditionPk := names.1, pkValue := pk,
            filterAttrKey := attr_key, filterAttrValue := attr_value }

/-- C5: for every sequence of `N` items with `B = BATCH_SIZE = 25`, the
batching comprehension yields `ceil(N/B)` batches whose sizes sum to `N`,
each of size at most `B`, all but possibly the last of size exactly `B`, and
whose in-order concatenation reproduces the original sequence (hence the
batches are ordered, contiguous and non-overlapping). -/
theorem batcher_batches_spec (l : List α) :
    (batcher l).length = (l.length + BATCH_SIZE - 1) / BATCH_SIZE ∧
    (batcher l).flatten = l ∧
    ((batcher l).map List.length).sum = l.length ∧
    (∀ b ∈ batcher l, b.length ≤ BATCH_SIZE) ∧
    (∀ b ∈ (batcher l).dropLast, b.length = BATCH_SIZE) := by
  refine ⟨by simp [batcher], ?_, ?_, ?_, ?_⟩
  · rw [batcher_eq_chunk]; exact chunk_flatten l
  · rw [batcher_eq_chunk, ← List.length_flatten, chunk_flatten]
  · rw [batcher_eq_chunk]; exact chunk_sizes l
  · rw [batcher_eq_chunk]; exact chunk_sizes_dropLast l

/-- Witness for `batcher_batches_spec` at a 26-element sequence: the one
non-final batch has exactly `BATCH_SIZE` elements. -/
theorem batcher_batches_spec_witness : (List.range 25).length = BATCH_SIZE :=
  (batcher_batches_spec (List.range 26)).2.2.2.2 (List.range 25) (by decide)

theorem backoffDelays_succ (b k : Nat) :
    backoffDelays b (k + 1) = b :: backoffDelays (b * 2) k := by
  unfold backoffDelays
  rw [List.range_succ_eq_map, List.map_cons, List.map_map]
  congr 1
  · simp
  · apply List.map_congr_left
    intro i _
    simp only [Function.comp_apply]
    rw [pow_succ]
    ring

theorem backoffLoop_done (resp : WriteResponse) (b : Nat)
    (service : List WriteResponse) (h : resp.unprocessedItems = []) :
    backoffLoop resp b service = ⟨[], [], none⟩ := by
  unfold backoffLoop
  rw [if_pos h]

theorem backoffLoop_cons (resp r : WriteResponse) (b : Nat)
    (rs : List WriteResponse) (hresp : resp.unprocessedItems ≠ [])
    (h200 : r.httpStatusCode = 200) :
    backoffLoop resp b (r :: rs) =
      ⟨resp.unprocessedItems :: (backoffLoop r (b * 2) rs).submissions,
        b :: (backoffLoop r (b * 2) rs).delays,
        (backoffLoop r (b * 2) rs).error⟩ := by
  conv_lhs => rw [backoffLoop]
  rw [if_neg hresp]
  simp [h200]

theorem backoffLoop_success (pre : List WriteResponse) :
    ∀ (resp fin : WriteResponse) (b : Nat),
    (∀ r ∈ pre, r.httpStatusCode = 200 ∧ r.unprocessedItems ≠ []) →
    fin.httpStatusCode = 200 → fin.unprocessedItems = [] →
    resp.unprocessedItems ≠ [] →
    backoffLoop resp b (pre ++ [fin]) =
      ⟨resp.unprocessedItems :: pre.map (·.unprocessedItems),
        backoffDelays b (pre.length + 1), none⟩ := by
  induction pre with
  | nil =>
    intro resp fin b _ h200 hU hresp
    rw [List.nil_append, backoffLoop_cons resp fin b [] hresp h200,
      backoffLoop_done fin (b * 2) [] hU]
    simp [backoffDelays, List.range_succ]
  | cons p ps ih =>
    intro resp fin b hpre h200 hU hresp
    obtain ⟨hp200, hpU⟩ := hpre p (List.mem_cons_self p ps)
    have hpre' : ∀ r ∈ ps, r.httpStatusCode = 200 ∧ r.unprocessedItems ≠ [] :=
      fun r hr => hpre r (List.mem_cons_of_mem p hr)
    rw [List.cons_append, backoffLoop_cons resp p b (ps ++ [fin]) hresp hp200,
      ih p fin (b * 2) hpre' h200 hU hpU]
    simp only [List.length_cons]
    rw [backoffDelays_succ b (ps.length + 1)]
    simp

theorem backoffLoop_nonsuccess (pre : List WriteResponse) :
    ∀ (resp bad : WriteResponse) (b : Nat) (rest : List WriteResponse),
    (∀ r ∈ pre, r.httpStatusCode = 200 ∧ r.unprocessedItems ≠ []) →
    bad.httpStatusCode ≠ 200 → resp.unprocessedItems ≠ [] →
    backoffLoop resp b (pre ++ bad :: rest) =
      ⟨resp.unprocessedItems :: pre.map (·.unprocessedItems),
        backoffDelays b (pre.length + 1),
        some "returned a problem writing batch unprocessed items"⟩ := by
  induction pre with
  | nil =>
    intro resp bad b rest _ hbad hresp
    rw [List.nil_append]
    conv_lhs => rw [backoffLoop]
    rw [if_neg hresp]
    simp [hbad, backoffDelays, List.range_succ]
  | cons p ps ih =>
    intro resp bad b rest hpre hbad hresp
    obtain ⟨hp200, hpU⟩ := hpre p (List.mem_cons_self p ps)
    have hpre' : ∀ r ∈ ps, r.httpStatusCode = 200 ∧ r.unprocessedItems ≠ [] :=
      fun r hr => hpre r (List.mem_cons_of_mem p hr)
    rw [List.cons_append, backoffLoop_cons resp p b (ps ++ bad :: rest) hresp hp200,
      ih p bad (b * 2) rest hpre' hbad hpU]
    simp only [List.length_cons]
    rw [backoffDelays_succ b (ps.length + 1)]
    simp

/-- C1: a batch write whose mocked responses are `pre ++ [fin]` — every
response in `pre` has HTTP status 200 and a non-empty `UnprocessedItems` set,
and `fin` has status 200 and an empty one — returns without raising, sleeps
the exponential schedule 3, 6, 12, ... (one sleep per non-empty
`UnprocessedItems` state, doubling each time), resubmits after each sleep
exactly the unprocessed subset reported by the previous response, and issues
exactly `pre.length + 1` write calls (non-empty states plus one); `pre` is
arbitrary, so no retry bound exists. -/
theorem write_retry_backoff_spec (batch : List WriteRequest)
    (pre : List WriteResponse) (fin : WriteResponse)
    (hpre : ∀ r ∈ pre, r.httpStatusCode = 200 ∧ r.unprocessedItems ≠ [])
    (h200 : fin.httpStatusCode = 200) (hU : fin.unprocessedItems = []) :
    write_batch_items_with_retry batch (pre ++ [fin]) =
      ⟨batch :: pre.map (·.unprocessedItems), backoffDelays 3 pre.length, none⟩ ∧
    (write_batch_items_with_retry batch (pre ++ [fin])).submissions.length
      = pre.length + 1 := by
  have hmain : write_batch_items_with_retry batch (pre ++ [fin]) =
      ⟨batch :: pre.map (·.unprocessedItems), backoffDelays 3 pre.length, none⟩ := by
    cases pre with
    | nil =>
      rw [List.nil_append, write_batch_items_with_retry]
      simp [h200, backoffLoop_done fin 3 [] hU, backoffDelays]
    | cons p ps =>
      obtain ⟨hp200, hpU⟩ := hpre p (List.mem_cons_self p ps)
      have hpre' : ∀ r ∈ ps, r.httpStatusCode = 200 ∧ r.unprocessedItems ≠ [] :=
        fun r hr => hpre r (List.mem_cons_of_mem p hr)
      rw [List.cons_append, write_batch_items_with_retry]
      simp only [hp200, ne_eq, not_true_eq_false, if_false, ite_false]
      rw [backoffLoop_success ps p fin 3 hpre' h200 hU hpU]
      simp [backoffDelays_succ]
  exact ⟨hmain, by rw [hmain]; simp⟩

/-- Witness for `write_retry_backoff_spec`: a 2-retry run (unprocessed sets
shrinking to empty) submits the batch then the two unprocessed subsets, and
sleeps 3 then 6. -/
theorem write_retry_backoff_spec_witness :
    write_batch_items_with_retry [.put [("pk", "a")], .put [("pk", "b")]]
      ([⟨200, [.put [("pk", "a")]]⟩, ⟨200, [.put [("pk", "b")]]⟩] ++ [⟨200, []⟩]) =
      ⟨[[.put [("pk", "a")], .put [("pk", "b")]],
        [.put [("pk", "a")]], [.put [("pk", "b")]]], [3, 6], none⟩ :=
  ((write_retry_backoff_spec _ _ _ (by decide) rfl rfl).1).trans (by decide)

/-- C7: when the response to any write call — the initial submission
(`pre = []`) or any resubmission of unprocessed items — reports a non-200
status, the writer raises at once: it performs exactly the `pre.length + 1`
calls made so far, sleeps only the `pre.length` backoff delays that preceded
the failing call, and the result does not depend on `rest` (the failing call
is never retried); only the non-empty-`UnprocessedItems` condition with a 200
status triggers a retry. -/
theorem write_retry_nonsuccess_spec (batch : List WriteRequest)
    (pre : List WriteResponse) (bad : WriteResponse)
    (rest : List WriteResponse)
    (hpre : ∀ r ∈ pre, r.httpStatusCode = 200 ∧ r.unprocessedItems ≠ [])
    (hbad : bad.httpStatusCode ≠ 200) :
    (write_batch_items_with_retry batch (pre ++ bad :: rest)).submissions
        = batch :: pre.map (·.unprocessedItems) ∧
    (write_batch_items_with_retry batch (pre ++ bad :: rest)).delays
        = backoffDelays 3 pre.length ∧
    (write_batch_items_with_retry batch (pre ++ bad :: rest)).error.isSome
        = true := by
  cases pre with
  | nil =>
    rw [List.nil_append, write_batch_items_with_retry]
    simp [hbad, backoffDelays]
  | cons p ps =>
    obtain ⟨hp200, hpU⟩ := hpre p (List.mem_cons_self p ps)
    have hpre' : ∀ r ∈ ps, r.httpStatusCode = 200 ∧ r.unprocessedItems ≠ [] :=
      fun r hr => hpre r (List.mem_cons_of_mem p hr)
    rw [List.cons_append, write_batch_items_with_retry]
    simp only [hp200, ne_eq, not_true_eq_false, if_false, ite_false]
    rw [backoffLoop_nonsuccess ps p bad 3 rest hpre' hbad hpU]
    simp

/-- Witness for `write_retry_nonsuccess_spec`: one successful-but-unprocessed
response followed by a 500 response — the writer issues the initial call and
one resubmission, sleeps once, and raises, never touching the third mocked
response. -/
theorem write_retry_nonsuccess_spec_witness :
    (write_batch_items_with_retry [.put [("pk", "a")]]
      ([⟨200, [.put [("pk", "a")]]⟩] ++ ⟨500, []⟩ :: [⟨200, []⟩])).submissions
      = [[.put [("pk", "a")]], [.put [("pk", "a")]]] :=
  ((write_retry_nonsuccess_spec [.put [("pk", "a")]] [⟨200, [.put [("pk", "a")]]⟩]
      ⟨500, []⟩ [⟨200, []⟩] (by decide) (by decide)).1).trans (by decide)

theorem query_items_loop_run (pre : List QueryResponse) :
    ∀ (lek : Option Item) (fin : QueryResponse) (rest : List QueryResponse),
    (∀ r ∈ pre, queryContinue r = true) → queryContinue fin = false →
    query_items_loop lek (pre ++ fin :: rest) =
      ⟨(pre.map (·.items)).flatten ++ fin.items,
        lek :: pre.map (·.lastEvaluatedKey), false⟩ := by
  induction pre with
  | nil =>
    intro lek fin rest _ hfin
    rw [List.nil_append, query_items_loop]
    simp [hfin]
  | cons p ps ih =>
    intro lek fin rest hpre hfin
    have hp := hpre p (List.mem_cons_self p ps)
    have hpre' : ∀ r ∈ ps, queryContinue r = true :=
      fun r hr => hpre r (List.mem_cons_of_mem p hr)
    rw [List.cons_append, query_items_loop]
    simp only [hp, if_true]
    rw [ih p.lastEvaluatedKey fin rest hpre' hfin]
    simp

/-- C4: run against mocked pages `pre ++ fin :: rest` where every response in
`pre` satisfies the continuation condition and `fin` does not, the pagination
loop issues one call per response of `pre` plus the final one — each call
after the first using the previous response's `LastEvaluatedKey` as its start
key — accumulates exactly those pages' items, and stops at `fin` without ever
consuming `rest`.  The loop stops exactly on a response with no
`LastEvaluatedKey` or without a positive `ScannedCount`; in particular a
response carrying a continuation token together with `ScannedCount = 0`
terminates the query rather than looping. -/
theorem query_pagination_spec (pre : List QueryResponse) (fin : QueryResponse)
    (rest : List QueryResponse)
    (hpre : ∀ r ∈ pre, queryContinue r = true)
    (hfin : queryContinue fin = false) :
    query_items_loop none (pre ++ fin :: rest) =
      ⟨(pre.map (·.items)).flatten ++ fin.items,
        none :: pre.map (·.lastEvaluatedKey), false⟩ ∧
    (∀ r : QueryResponse, queryContinue r = false ↔
      (r.lastEvaluatedKey = none ∨ r.scannedCount.getD 0 = 0)) ∧
    (∀ (r : QueryResponse) (rs : List QueryResponse), r.scannedCount = some 0 →
      query_items_loop none (r :: rs) = ⟨r.items, [none], false⟩) := by
  have hchar : ∀ r : QueryResponse, queryContinue r = false ↔
      (r.lastEvaluatedKey = none ∨ r.scannedCount.getD 0 = 0) := by
    intro r
    cases hl : r.lastEvaluatedKey <;> cases hs : r.scannedCount <;>
      simp [queryContinue, hl, hs]
  refine ⟨query_items_loop_run pre none fin rest hpre hfin, hchar, ?_⟩
  intro r rs hr
  have hstop : queryContinue r = false := (hchar r).mpr (Or.inr (by simp [hr]))
  rw [query_items_loop]
  simp [hstop]

/-- Witness for `query_pagination_spec`: one continuing page followed by a
page that carries a continuation token but reports `ScannedCount = 0` — the
loop returns both pages' items and stops, never consuming the third mocked
response. -/
theorem query_pagination_spec_witness :
    query_items_loop none
      ([⟨[[("pk", "a")]], some [("pk", "a")], some 1⟩] ++
        ⟨[], some [("pk", "a")], some 0⟩ :: [⟨[[("pk", "z")]], none, none⟩]) =
      ⟨[[("pk", "a")]], [none, some [("pk", "a")]], false⟩ :=
  ((query_pagination_spec [⟨[[("pk", "a")]], some [("pk", "a")], some 1⟩]
      ⟨[], some [("pk", "a")], some 0⟩ [⟨[[("pk", "z")]], none, none⟩]
      (by decide) (by decide)).1).trans (by decide)

/-- C10: a `DeleteRequest` entry is built from exactly the two attributes
named by the resolved partition and sort key: when both names resolve and the
item carries both attributes, the request's `Key` holds precisely those two
pairs.  When the table's key schema resolved no sort key
(`sk_name = none`), the subscript `item[self.sk_name]` looks up `None` and
raises `KeyError` for every item, so `_write_batch_items` fails on any
non-empty batched deletion: selective copy and batched deletion presuppose a
table with both a partition and a sort key. -/
theorem delete_request_requires_sort_key :
    (∀ (pkn skn : String) (item : Item) (pv sv : String),
      lookupAttr item (some pkn) = some pv →
      lookupAttr item (some skn) = some sv →
      buildDeleteRequest (some pkn) (some skn) item =
        .ok (.delete [(some pkn, pv), (some skn, sv)])) ∧
    (∀ (pkName : Option String) (item : Item),
      buildDeleteRequest pkName none item = .error "KeyError") ∧
    (∀ (t : Table) (item : Item) (items : List Item), sk_name t = none →
      _write_batch_items t "DeleteRequest" (item :: items) =
        .error "KeyError") := by
  refine ⟨?_, ?_, ?_⟩
  · intro pkn skn item pv sv hpv hsv
    unfold buildDeleteRequest
    rw [hpv, hsv]
  · intro pkName item
    cases hlk : lookupAttr item pkName with
    | none => unfold buildDeleteRequest; rw [hlk]
    | some v =>
      unfold buildDeleteRequest
      rw [hlk]
      rfl
  · intro t item items hsk
    have hfail : buildDeleteRequest (pk_name t) none item = .error "KeyError" := by
      cases hlk : lookupAttr item (pk_name t) with
      | none => unfold buildDeleteRequest; rw [hlk]
      | some v =>
        unfold buildDeleteRequest
        rw [hlk]
        rfl
    unfold _write_batch_items
    rw [if_neg (by decide), if_pos rfl, hsk, List.mapM_cons, hfail]
    rfl

/-- Witness for `delete_request_requires_sort_key`: a table whose key schema
has only a `HASH` entry resolves `sk_name = none`, and deleting one item
through `_write_batch_items` raises `KeyError`; on a table with both keys the
request is built from exactly the two key attributes. -/
theorem delete_request_requires_sort_key_witness :
    _write_batch_items
      ⟨"dev".toList, "table".toList, [⟨"id", "HASH"⟩], none, []⟩
      "DeleteRequest" [[("id", "a"), ("x", "1")]] = .error "KeyError" ∧
    buildDeleteRequest (some "id") (some "ts") [("id", "a"), ("ts", "b"), ("x", "1")] =
      .ok (.delete [(some "id", "a"), (some "ts", "b")]) :=
  ⟨delete_request_requires_sort_key.2.2
      ⟨"dev".toList, "table".toList, [⟨"id", "HASH"⟩], none, []⟩
      [("id", "a"), ("x", "1")] [] (by decide),
    delete_request_requires_sort_key.1 "id" "ts"
      [("id", "a"), ("ts", "b"), ("x", "1")] "a" "b" (by decide) (by decide)⟩

/-- C9: `query_with_filter` handles the index inversely to `query_items`.
With an index name supplied it queries the index (`IndexName` set) but builds
the key condition from `Key(self.pk_name)` — the base table's partition key
name; with no index name it first resolves a secondary-index key schema with
index name `None` (subscripting the `GlobalSecondaryIndexes` list), so it
raises on any table whose description has no global secondary index.  By
contrast, `query_items` with an index name takes the key-condition name from
the index's own key schema. -/
theorem query_with_filter_inverted_index_handling :
    (∀ (t : Table) (pk ak av idx : String),
      query_with_filter t pk ak av (some idx) =
        .ok ⟨t.table_name, some idx, pk_name t, pk, ak, av⟩) ∧
    (∀ (t : Table) (pk ak av : String), t.globalSecondaryIndexes = none →
      query_with_filter t pk ak av none =
        .error "KeyError: GlobalSecondaryIndexes") ∧
    (∀ (t : Table) (pk : String) (sk : Option String) (idx : String)
        (names : Option String × Option String),
      _get_secondary_key t (some idx) = .ok names →
      query_items_params t pk sk (some idx) =
        .ok ⟨t.table_name, 200, "ALL_ATTRIBUTES", some idx, names.1,
          if sk.isSome then names.2 else none, pk, sk⟩) := by
  refine ⟨fun t pk ak av idx => rfl, ?_, ?_⟩
  · intro t pk ak av hgsi
    unfold query_with_filter _get_secondary_key
    rw [hgsi]
    rfl
  · intro t pk sk idx names hres
    unfold query_items_params
    simp only [hres]
    rfl

/-- Witness for `query_with_filter_inverted_index_handling`: a table with no
secondary index makes the no-index call raise, and `query_items` on a table
with one index takes the index's own partition key name (`gpk`, not `id`). -/
theorem query_with_filter_inverted_index_handling_witness :
    query_with_filter ⟨"dev".toList, "tbl".toList, [⟨"id", "HASH"⟩], none, []⟩
        "a" "k" "v" none = .error "KeyError: GlobalSecondaryIndexes" ∧
    query_items_params
        ⟨"dev".toList, "tbl".toList, [⟨"id", "HASH"⟩],
          some [⟨"gsi1", [⟨"gpk", "HASH"⟩]⟩], []⟩ "a" none (some "gsi1") =
      .ok ⟨"tbl".toList, 200, "ALL_ATTRIBUTES", some "gsi1", some "gpk",
        none, "a", none⟩ :=
  ⟨query_with_filter_inverted_index_handling.2.1
      ⟨"dev".toList, "tbl".toList, [⟨"id", "HASH"⟩], none, []⟩ "a" "k" "v" rfl,
    query_with_filter_inverted_index_handling.2.2
      ⟨"dev".toList, "tbl".toList, [⟨"id", "HASH"⟩],
        some [⟨"gsi1", [⟨"gpk", "HASH"⟩]⟩], []⟩ "a" none "gsi1"
      (some "gpk", none) (by rfl)⟩

/-- C6: when neither table name is a substring of the other, both
`copy_dynamodb_table` and `copy_dynamodb_items` raise the configuration error
immediately — the result is the error alone, no event trace, regardless of
the scan segments or mocked query services (no remote call of the operation
is reached); conversely, when either name is a substring of the other, the
check passes and both operations run to completion. -/
theorem copy_compatibility_check (s t : Table) (segs : List (List Item))
    (pk : String) (sk : Option String) (index_name : Option String)
    (svcS svcT : List QueryResponse) :
    (¬ s.table_name <:+: t.table_name → ¬ t.table_name <:+: s.table_name →
      copy_dynamodb_table s t segs = .error "Cannot copy different tables" ∧
      copy_dynamodb_items s t pk sk index_name svcS svcT =
        .error "Cannot copy items across tables with different names") ∧
    ((s.table_name <:+: t.table_name ∨ t.table_name <:+: s.table_name) →
      (∃ r, copy_dynamodb_table s t segs = .ok r) ∧
      (∃ r, copy_dynamodb_items s t pk sk none svcS svcT = .ok r)) := by
  constructor
  · intro h1 h2
    constructor
    · unfold copy_dynamodb_table
      rw [if_pos ⟨h1, h2⟩]
    · unfold copy_dynamodb_items
      rw [if_pos ⟨h1, h2⟩]
  · intro hcompat
    have hneg : ¬ (¬ s.table_name <:+: t.table_name ∧
        ¬ t.table_name <:+: s.table_name) :=
      fun h => hcompat.elim h.1 h.2
    constructor
    · unfold copy_dynamodb_table
      rw [if_neg hneg]
      exact ⟨_, rfl⟩
    · unfold copy_dynamodb_items
      rw [if_neg hneg]
      exact ⟨_, rfl⟩

/-- Witness for `copy_compatibility_check`: tables named `abc` and `xyz` are
rejected by both operations; tables named `tbl` and `tbl-backup` pass. -/
theorem copy_compatibility_check_witness :
    copy_dynamodb_table ⟨"dev".toList, "abc".toList, [], none, []⟩
        ⟨"dev".toList, "xyz".toList, [], none, []⟩ [] =
      .error "Cannot copy different tables" ∧
    (∃ r, copy_dynamodb_table ⟨"dev".toList, "tbl".toList, [], none, []⟩
        ⟨"dev".toList, "tbl-backup".toList, [], none, []⟩ [] = .ok r) :=
  ⟨((copy_compatibility_check ⟨"dev".toList, "abc".toList, [], none, []⟩
      ⟨"dev".toList, "xyz".toList, [], none, []⟩ [] "p" none none [] []).1
      (by decide) (by decide)).1,
    ((copy_compatibility_check ⟨"dev".toList, "tbl".toList, [], none, []⟩
      ⟨"dev".toList, "tbl-backup".toList, [], none, []⟩ [] "p" none none [] []).2
      (by left; decide)).1⟩

/-- C2: a full-table copy between compatibly named tables produces exactly the
sequence: back up the target, truncate the target, and only then the scan and
put events of the parallel batch copy; when the scan segments together return
exactly the source's items, the final target holds exactly the source's items
and no others. -/
theorem full_copy_sequencing (s t : Table) (segs : List (List Item))
    (hcompat : s.table_name <:+: t.table_name ∨ t.table_name <:+: s.table_name)
    (hsegs : segs.flatten = s.items) :
    copy_dynamodb_table s t segs = .ok (
      Event.createBackup t.env t.table_name ::
      Event.truncateTable t.env t.table_name ::
      ((List.range segs.length).map (fun segment =>
        Event.dispatchScan s.env s.table_name "ALL_ATTRIBUTES" true
            segment segs.length ::
        Event.awaitScan segment ::
        (batcher (segs.getD segment [])).map
          (fun b => Event.putBatch t.env t.table_name b))).flatten,
      { t with items := s.items }) := by
  have hneg : ¬ (¬ s.table_name <:+: t.table_name ∧
      ¬ t.table_name <:+: s.table_name) :=
    fun h => hcompat.elim h.1 h.2
  unfold copy_dynamodb_table create_backup _truncate _copy_in_parallel_batch
  rw [if_neg hneg]
  simp [hsegs]

/-- Witness for `full_copy_sequencing`: a 3-item source scanned in two
segments is copied into a compatibly named target that initially holds other
items; the trace backs up, truncates, then scans and puts, and the target
ends with exactly the source's items. -/
theorem full_copy_sequencing_witness :
    copy_dynamodb_table
      ⟨"dev".toList, "tbl".toList, [], none,
        [[("pk", "1")], [("pk", "2")], [("pk", "3")]]⟩
      ⟨"prod".toList, "tbl-backup".toList, [], none, [[("pk", "9")]]⟩
      [[[("pk", "1")], [("pk", "2")]], [[("pk", "3")]]] =
    .ok ([.createBackup "prod".toList "tbl-backup".toList,
          .truncateTable "prod".toList "tbl-backup".toList,
          .dispatchScan "dev".toList "tbl".toList "ALL_ATTRIBUTES" true 0 2,
          .awaitScan 0,
          .putBatch "prod".toList "tbl-backup".toList [[("pk", "1")], [("pk", "2")]],
          .dispatchScan "dev".toList "tbl".toList "ALL_ATTRIBUTES" true 1 2,
          .awaitScan 1,
          .putBatch "prod".toList "tbl-backup".toList [[("pk", "3")]]],
        ⟨"prod".toList, "tbl-backup".toList, [], none,
          [[("pk", "1")], [("pk", "2")], [("pk", "3")]]⟩) :=
  (full_copy_sequencing
      ⟨"dev".toList, "tbl".toList, [], none,
        [[("pk", "1")], [("pk", "2")], [("pk", "3")]]⟩
      ⟨"prod".toList, "tbl-backup".toList, [], none, [[("pk", "9")]]⟩
      [[[("pk", "1")], [("pk", "2")]], [[("pk", "3")]]]
      (by left; decide) (by decide)).trans (by rfl)

/-- Whether an event is a batch delete write call. -/
def isDeleteBatchEvent : Event → Bool
  | .deleteBatch _ _ _ => true
  | _ => false

/-- Whether an event is a batch put write call. -/
def isPutBatchEvent : Event → Bool
  | .putBatch _ _ _ => true
  | _ => false

/-- C3: in the write trace of a selective item copy, the delete write calls
are exactly the target's matching item batches, the put write calls are
exactly the source's matching item batches, and every delete call strictly
precedes every put call — the two phases are sequenced, never interleaved. -/
theorem selective_copy_delete_before_put (s t : Table)
    (source_items target_items : List Item) :
    (_copy_items_in_parallel_batch s t source_items target_items).filter
        isDeleteBatchEvent =
      (batcher target_items).map
        (fun b => Event.deleteBatch t.env t.table_name b) ∧
    (_copy_items_in_parallel_batch s t source_items target_items).filter
        isPutBatchEvent =
      (batcher source_items).map
        (fun b => Event.putBatch t.env t.table_name b) ∧
    (∀ (i j : Nat)
      (hi : i < (_copy_items_in_parallel_batch s t source_items target_items).length)
      (hj : j < (_copy_items_in_parallel_batch s t source_items target_items).length),
      isDeleteBatchEvent
        ((_copy_items_in_parallel_batch s t source_items target_items).get ⟨i, hi⟩)
        = true →
      isPutBatchEvent
        ((_copy_items_in_parallel_batch s t source_items target_items).get ⟨j, hj⟩)
        = true →
      i < j) := by
  have hAdel : ∀ e ∈ (batcher target_items).map
      (fun b => Event.deleteBatch t.env t.table_name b),
      isDeleteBatchEvent e = true := by
    intro e he
    obtain ⟨b, _, rfl⟩ := List.mem_map.mp he
    rfl
  have hAput : ∀ e ∈ (batcher target_items).map
      (fun b => Event.deleteBatch t.env t.table_name b),
      isPutBatchEvent e = false := by
    intro e he
    obtain ⟨b, _, rfl⟩ := List.mem_map.mp he
    rfl
  have hBput : ∀ e ∈ (batcher source_items).map
      (fun b => Event.putBatch t.env t.table_name b),
      isPutBatchEvent e = true := by
    intro e he
    obtain ⟨b, _, rfl⟩ := List.mem_map.mp he
    rfl
  have hBdel : ∀ e ∈ (batcher source_items).map
      (fun b => Event.putBatch t.env t.table_name b),
      isDeleteBatchEvent e = false := by
    intro e he
    obtain ⟨b, _, rfl⟩ := List.mem_map.mp he
    rfl
  refine ⟨?_, ?_, ?_⟩
  · unfold _copy_items_in_parallel_batch
    rw [List.filter_append, List.filter_eq_self.mpr hAdel,
      List.filter_eq_nil_iff.mpr (by intro e he; rw [hBdel e he]; exact Bool.false_ne_true),
      List.append_nil]
  · unfold _copy_items_in_parallel_batch
    rw [List.filter_append, List.filter_eq_self.mpr hBput,
      List.filter_eq_nil_iff.mpr (by intro e he; rw [hAput e he]; exact Bool.false_ne_true),
      List.nil_append]
  · intro i j hi hj hdel hput
    have hlen : (_copy_items_in_parallel_batch s t source_items target_items).length
        = ((batcher target_items).map
            (fun b => Event.deleteBatch t.env t.table_name b)).length
          + ((batcher source_items).map
            (fun b => Event.putBatch t.env t.table_name b)).length := by
      unfold _copy_items_in_parallel_batch
      rw [List.length_append]
    have hi' : i < ((batcher target_items).map
        (fun b => Event.deleteBatch t.env t.table_name b)).length := by
      by_contra hle
      push_neg at hle
      have : isDeleteBatchEvent
          ((_copy_items_in_parallel_batch s t source_items target_items).get
            ⟨i, hi⟩) = false := by
        have hget : (_copy_items_in_parallel_batch s t source_items target_items).get
            ⟨i, hi⟩ ∈ (batcher source_items).map
              (fun b => Event.putBatch t.env t.table_name b) := by
          rw [List.get_eq_getElem]
          unfold _copy_items_in_parallel_batch
          rw [List.getElem_append_right (by simpa using hle)]
          exact List.getElem_mem _
        exact hBdel _ hget
      rw [hdel] at this
      exact absurd this (by simp)
    have hj' : ¬ j < ((batcher target_items).map
        (fun b => Event.deleteBatch t.env t.table_name b)).length := by
      intro hlt
      have : isPutBatchEvent
          ((_copy_items_in_parallel_batch s t source_items target_items).get
            ⟨j, hj⟩) = false := by
        have hget : (_copy_items_in_parallel_batch s t source_items target_items).get
            ⟨j, hj⟩ ∈ (batcher target_items).map
              (fun b => Event.deleteBatch t.env t.table_name b) := by
          rw [List.get_eq_getElem]
          unfold _copy_items_in_parallel_batch
          rw [List.getElem_append_left hlt]
          exact List.getElem_mem _
        exact hAput _ hget
      rw [hput] at this
      exact absurd this (by simp)
    omega

/-- Witness for `selective_copy_delete_before_put`: with one matching item on
each side, the trace is one delete then one put, and the delete's index 0
precedes the put's index 1. -/
theorem selective_copy_delete_before_put_witness : (0 : Nat) < 1 :=
  (selective_copy_delete_before_put
      ⟨"dev".toList, "tbl".toList, [], none, []⟩
      ⟨"prod".toList, "tbl".toList, [], none, []⟩
      [[("pk", "s")]] [[("pk", "t")]]).2.2 0 1 (by decide) (by decide)
    (by decide) (by decide)

/-- C8 evaluation: `_copy_in_parallel_batch` with two scan segments.  Every
scan call does request `ALL_ATTRIBUTES` with `ConsistentRead` enabled and the
identical `TotalSegments = 2`, but the dispatch of segment 1 comes only after
segment 0's scan has been awaited (`apply_async` is immediately followed by a
blocking `result.get()` inside the per-segment loop) and after segment 0's
batch writes: the segments are scanned one after another, not dispatched to
the pool concurrently. -/
theorem segmented_scan_serialized_dispatch :
    (_copy_in_parallel_batch
      ⟨"dev".toList, "tbl".toList, [], none,
        [[("pk", "1")], [("pk", "2")]]⟩
      ⟨"prod".toList, "tbl-backup".toList, [], none, []⟩
      [[[("pk", "1")]], [[("pk", "2")]]]).1 =
    [.dispatchScan "dev".toList "tbl".toList "ALL_ATTRIBUTES" true 0 2,
     .awaitScan 0,
     .putBatch "prod".toList "tbl-backup".toList [[("pk", "1")]],
     .dispatchScan "dev".toList "tbl".toList "ALL_ATTRIBUTES" true 1 2,
     .awaitScan 1,
     .putBatch "prod".toList "tbl-backup".toList [[("pk", "2")]]] := by
  decide
